import Mathlib

/-! Landing-page behaviour of `script.js`.

A shallow embedding of the interactive routines of `src/script.js`:
the hero phone rotation, the advantages carousel, the showcase tab
switcher, the timeline reveal and the popup.  DOM state that a routine
reads or writes is an explicit field of a state record; every handler is
a pure function from state to state.  Pixel quantities and indices are
integers.
-/

namespace MoaIt

/-! ## DOM class lists -/

/-- The method `classList.add(c)`: the token is appended unless already present. -/
def classAdd (cls : List String) (c : String) : List String :=
  if c ∈ cls then cls else cls ++ [c]

/-- The method `classList.remove(c)`: every occurrence of the token is dropped. -/
def classRemove (cls : List String) (c : String) : List String :=
  cls.filter (fun x => x != c)

/-- The method `classList.toggle(c, force)`: add when `force`, remove otherwise. -/
def classToggle (cls : List String) (c : String) (force : Bool) : List String :=
  if force then classAdd cls c else classRemove cls c

/-! ## 3. Advantages carousel -/

/-- The constant `GAP` of the carousel (pixels between two cards). -/
def GAP : Int := 20

/-- The function `getVisibleCount`, with `window.innerWidth` as its argument. -/
def getVisibleCount (innerWidth : Int) : Int :=
  if innerWidth ≤ 600 then 1
  else if innerWidth ≤ 960 then 2
  else 3

/-- One indicator button created by `buildDots`: its class list, its
`aria-label` and the index its click listener passes to `goTo`. -/
structure Dot where
  classes : List String
  ariaLabel : String
  target : Int
  deriving DecidableEq

/-- State of the advantages carousel: the closure variables of the IIFE
(`total`, `currentIndex`, `visibleCount`, `maxIndex`, `touchStartX`), the
parts of the page it reads (`innerWidth` is `window.innerWidth`,
`cardWidth` the measured width of the first card) and the parts it
writes (`dots` are the children of the dots container in document order,
`offset` is the `x` of the track's `translateX(-x px)`, `none` before the
first write). -/
structure Advantages where
  total : Nat
  innerWidth : Int
  cardWidth : Int
  currentIndex : Int
  visibleCount : Int
  maxIndex : Int
  dots : List Dot
  offset : Option Int
  touchStartX : Int
  deriving DecidableEq

/-- The button built by one iteration `i` of the loop of `buildDots`. -/
def mkDot (currentIndex : Int) (i : Nat) : Dot :=
  { classes := if (i : Int) = currentIndex then ["dot", "active"] else ["dot"]
    ariaLabel := "Go to slide " ++ toString (i + 1)
    target := i }

/-- The function `buildDots`: empty the container, recompute
`visibleCount` and `maxIndex`, then append one button for every
`i = 0, 1, ..., maxIndex` (none when `maxIndex < 0`). -/
def buildDots (c : Advantages) : Advantages :=
  let visibleCount := getVisibleCount c.innerWidth
  let maxIndex := (c.total : Int) - visibleCount
  { c with
    visibleCount := visibleCount
    maxIndex := maxIndex
    dots := (List.range (maxIndex + 1).toNat).map (mkDot c.currentIndex) }

/-- The function `goTo`.  The assignment to `currentIndex` comes first;
with no card at all `cards[0]` is `undefined` and the call stops there
with a `TypeError`, which leaves the assignment in place and skips the
translation and the dot update.  The elements matched by `.dot` are the
buttons of the dots container. -/
def goTo (c : Advantages) (index : Int) : Advantages :=
  let currentIndex := max 0 (min index c.maxIndex)
  if c.total = 0 then { c with currentIndex := currentIndex }
  else
    { c with
      currentIndex := currentIndex
      offset := some (currentIndex * (c.cardWidth + GAP))
      dots := c.dots.mapIdx (fun i d =>
        { d with classes := classToggle d.classes "active" (decide ((i : Int) = currentIndex)) }) }

/-- The function `onResize`. -/
def onResize (c : Advantages) : Advantages :=
  let newVisible := getVisibleCount c.innerWidth
  if newVisible ≠ c.visibleCount then
    let maxIndex := (c.total : Int) - newVisible
    let c1 := { c with
      visibleCount := newVisible
      maxIndex := maxIndex
      currentIndex := min c.currentIndex maxIndex }
    let c2 := buildDots c1
    goTo c2 c2.currentIndex
  else c

/-- The body of the auto-advance interval callback. -/
def autoAdvance (c : Advantages) : Advantages :=
  goTo c (if c.currentIndex ≥ c.maxIndex then 0 else c.currentIndex + 1)

/-- The `touchstart` listener; `x` is `e.touches[0].clientX`. -/
def touchStart (c : Advantages) (x : Int) : Advantages :=
  { c with touchStartX := x }

/-- The `touchend` listener; `x` is `e.changedTouches[0].clientX`. -/
def touchEnd (c : Advantages) (x : Int) : Advantages :=
  let diff := c.touchStartX - x
  if |diff| > 50 then goTo c (c.currentIndex + (if diff > 0 then 1 else -1)) else c

/-- The carousel after the `let` initialisers of the IIFE and before its
`Init` lines.  `markup` is what the dots container holds in the page
source. -/
def advStart (total : Nat) (innerWidth cardWidth : Int) (markup : List Dot) : Advantages :=
  { total := total
    innerWidth := innerWidth
    cardWidth := cardWidth
    currentIndex := 0
    visibleCount := getVisibleCount innerWidth
    maxIndex := (total : Int) - getVisibleCount innerWidth
    dots := markup
    offset := none
    touchStartX := 0 }

/-- The carousel once the IIFE has run: `buildDots()` then `goTo(0)`. -/
def advInit (total : Nat) (innerWidth cardWidth : Int) (markup : List Dot) : Advantages :=
  goTo (buildDots (advStart total innerWidth cardWidth markup)) 0

/-- What can happen to the carousel after initialisation: a call
`goTo(index)` (a dot click passes the dot's index), the two touch
listeners, a firing of the auto-advance interval, and a `resize` of the
window to a new width (with a new measured card width). -/
inductive AdvEvent where
  | goTo (index : Int)
  | touchStart (x : Int)
  | touchEnd (x : Int)
  | tick
  | resize (innerWidth cardWidth : Int)
  deriving DecidableEq

/-- One event handled to completion. -/
def advStep (c : Advantages) : AdvEvent → Advantages
  | .goTo index => goTo c index
  | .touchStart x => touchStart c x
  | .touchEnd x => touchEnd c x
  | .tick => autoAdvance c
  | .resize w cw => onResize { c with innerWidth := w, cardWidth := cw }

/-- The states the carousel can be in between two events. -/
inductive AdvReachable : Advantages → Prop where
  | init (total : Nat) (innerWidth cardWidth : Int) (markup : List Dot) :
      AdvReachable (advInit total innerWidth cardWidth markup)
  | step {c : Advantages} (e : AdvEvent) : AdvReachable c → AdvReachable (advStep c e)

/-- The property every reachable carousel state has: the index is
between 0 and the larger of 0 and `total - visibleCount`, `maxIndex` is
`total - visibleCount`, and `visibleCount` is the count for the current
width. -/
def AdvInv (c : Advantages) : Prop :=
  0 ≤ c.currentIndex ∧ c.currentIndex ≤ max 0 ((c.total : Int) - c.visibleCount) ∧
    c.maxIndex = (c.total : Int) - c.visibleCount ∧
    c.visibleCount = getVisibleCount c.innerWidth

/-! ## 2. Hero phone rotation -/

/-- The array `POSITIONS`. -/
def POSITIONS : List String :=
  ["pos-hidden-left", "pos-left", "pos-center", "pos-right", "pos-hidden-right"]

/-- State of the hero: the closure variable `state` and the `className`
of every `.phone` element, in document order. -/
structure Hero where
  state : List Nat
  phones : List String
  deriving DecidableEq

/-- The string `'phone ' + POSITIONS[state[i]]`; an index outside an array
reads `undefined`, which concatenates as the text `undefined`. -/
def phoneClass (state : List Nat) (i : Nat) : String :=
  "phone " ++
    (match state[i]? with
     | some s => POSITIONS.getD s "undefined"
     | none => "undefined")

/-- The function `rotate`. -/
def rotate (h : Hero) : Hero :=
  let state := h.state.map (fun s => (s + 1) % 5)
  { state := state
    phones := h.phones.mapIdx (fun i _ => phoneClass state i) }

/-- The hero when the script has loaded: `state = [0, 1, 2, 3, 4]`, and
the phones carry the class names of the page source. -/
def heroInit (markup : List String) : Hero :=
  { state := [0, 1, 2, 3, 4], phones := markup }

/-- Modelled from the spec: the class names of the five `.phone` elements
in the page source, which is not part of the script.  The hero is "an
ordered assignment of 5 elements to 5 position labels" and, in the words
of the source comment, "each phone starts at its natural index
position": phone `i` has the classes `phone` and `POSITIONS[i]`. -/
def naturalMarkup : List String :=
  (List.range 5).map (fun i => "phone " ++ POSITIONS.getD i "undefined")

/-! ## 4. Showcase tab switcher -/

/-- A tab or a panel: its `data-tab` / `data-panel` attribute (`none` when
the attribute is missing, which reads `undefined`) and its class list. -/
structure Item where
  data : Option String
  classes : List String
  deriving DecidableEq

/-- A callback handed to `requestAnimationFrame`.  `outer p` and `inner p`
are the two nested callbacks of `activateTab` for the panel at position
`p`; `loadOuter` and `loadInner` are the two nested callbacks of the
page-load reveal. -/
inductive FrameCallback where
  | outer (p : Nat)
  | inner (p : Nat)
  | loadOuter
  | loadInner
  deriving DecidableEq

/-- State of the showcase: the tabs (`.showcase-tab`), the panels
(`.showcase-panel`) and the callbacks requested for the next animation
frame, in request order. -/
structure Showcase where
  tabs : List Item
  panels : List Item
  frames : List FrameCallback
  deriving DecidableEq

/-- The function `activateTab`. -/
def activateTab (s : Showcase) (tabId : Option String) : Showcase :=
  { tabs := s.tabs.map (fun t =>
      { t with classes := classToggle t.classes "active" (decide (t.data = tabId)) })
    panels := s.panels.map (fun p =>
      if p.data = tabId then { p with classes := classAdd p.classes "active" }
      else { p with classes := classRemove (classRemove p.classes "active") "visible" })
    frames := s.frames ++
      (s.panels.enum.filter (fun ip => decide (ip.2.data = tabId))).map (fun ip => .outer ip.1) }

/-- The call `p.classList.add('visible')` on the panel at position `p`. -/
def revealPanel (panels : List Item) (p : Nat) : List Item :=
  panels.mapIdx (fun i q => if i = p then { q with classes := classAdd q.classes "visible" } else q)

/-- Running one animation-frame callback.  The page-load callback looks
the panel up when it runs: `querySelector('.showcase-panel.active')` is
the first panel bearing `active`, and `?.` skips the call when there is
none. -/
def runCallback (s : Showcase) : FrameCallback → Showcase
  | .outer p => { s with frames := s.frames ++ [.inner p] }
  | .inner p => { s with panels := revealPanel s.panels p }
  | .loadOuter => { s with frames := s.frames ++ [.loadInner] }
  | .loadInner =>
    match s.panels.findIdx? (fun q => decide ("active" ∈ q.classes)) with
    | some p => { s with panels := revealPanel s.panels p }
    | none => s

/-- One animation frame: the callbacks requested so far run in request
order; what they request themselves waits for the following frame. -/
def animationFrame (s : Showcase) : Showcase :=
  s.frames.foldl runCallback { s with frames := [] }

/-- The showcase when the script has loaded: the page-load reveal has
been requested. -/
def showcaseInit (tabs panels : List Item) : Showcase :=
  { tabs := tabs, panels := panels, frames := [.loadOuter] }

/-- What can happen to the showcase: a call `activateTab(tabId)` or an
animation frame. -/
inductive ShowEvent where
  | activate (tabId : Option String)
  | frame
  deriving DecidableEq

/-- One showcase event handled to completion. -/
def showStep (s : Showcase) : ShowEvent → Showcase
  | .activate tabId => activateTab s tabId
  | .frame => animationFrame s

/-- The showcase after a list of events, oldest first. -/
def showRun (s : Showcase) (es : List ShowEvent) : Showcase :=
  es.foldl showStep s

/-! ## 5. Timeline reveal -/

/-- An `IntersectionObserverEntry`: the timeline item it is about and its
`isIntersecting` flag. -/
structure Entry where
  target : Nat
  isIntersecting : Bool
  deriving DecidableEq

/-- A pending `setTimeout(() => item.classList.add('visible'), delay)`. -/
structure Timeout where
  item : Nat
  delay : Nat
  deriving DecidableEq

/-- State of the timeline: the items the observer still observes and the
timeouts set so far, oldest first. -/
structure Timeline where
  observed : List Nat
  timeouts : List Timeout
  deriving DecidableEq

/-- The body of `entries.forEach((entry, i) => ...)` for one entry. -/
def onEntry (t : Timeline) (i : Nat) (entry : Entry) : Timeline :=
  if entry.isIntersecting then
    { observed := t.observed.filter (fun x => x != entry.target)
      timeouts := t.timeouts ++ [{ item := entry.target, delay := i * 100 }] }
  else t

/-- The observer callback on one batch of entries. -/
def observerCallback (t : Timeline) (entries : List Entry) : Timeline :=
  entries.enum.foldl (fun t ie => onEntry t ie.1 ie.2) t

/-- The timeline when the script has loaded: all `n` items observed. -/
def timelineInit (n : Nat) : Timeline :=
  { observed := List.range n, timeouts := [] }

/-- The timeline after a list of callback batches, oldest first. -/
def timelineRun (t : Timeline) (batches : List (List Entry)) : Timeline :=
  batches.foldl observerCallback t

/-- The items of the intersecting entries of a batch, in batch order. -/
def intersectingItems (entries : List Entry) : List Nat :=
  (entries.filter (fun e => e.isIntersecting)).map (fun e => e.target)

/-- The timeouts as the specification words them: an intersecting entry
waits 100 ms times its index among the intersecting entries of its
batch. -/
def specTimeouts (entries : List Entry) : List Timeout :=
  (entries.filter (fun e => e.isIntersecting)).enum.map
    (fun je => { item := je.2.target, delay := je.1 * 100 })

/-- What the browser hands to the callback: every batch names only items
that are observed when it is delivered, and names no item twice. -/
def Delivered : Timeline → List (List Entry) → Prop
  | _, [] => True
  | t, b :: bs =>
    (b.map (fun e => e.target)).Nodup ∧ (∀ e ∈ b, e.target ∈ t.observed) ∧
      Delivered (observerCallback t b) bs

/-- Every item with a timeout has exactly one and is no longer observed. -/
def OneShot (t : Timeline) : Prop :=
  (t.timeouts.map (fun o => o.item)).Nodup ∧
    ∀ x ∈ t.timeouts.map (fun o => o.item), x ∉ t.observed

/-! ## Popup and mobile menu -/

/-- The page state the popup and the menu handlers touch: the class list
of `#popupOverlay`, `document.body.style.overflow` and the class list of
`#mobileMenu`. -/
structure Page where
  overlay : List String
  overflow : String
  mobileMenu : List String
  deriving DecidableEq

/-- The function `openPopup`. -/
def openPopup (p : Page) : Page :=
  { p with overlay := classAdd p.overlay "open", overflow := "hidden" }

/-- The function `closePopup`. -/
def closePopup (p : Page) : Page :=
  { p with overlay := classRemove p.overlay "open", overflow := "" }

/-- The click listener of the overlay; `onOverlay` is `e.target === this`. -/
def overlayClick (p : Page) (onOverlay : Bool) : Page :=
  if onOverlay then closePopup p else p

/-- The `keydown` listener of the document; `key` is `e.key`. -/
def keydown (p : Page) (key : String) : Page :=
  if key = "Escape" then closePopup p else p

/-- The click listener of a link of the mobile menu. -/
def menuLinkClick (p : Page) : Page :=
  { p with mobileMenu := classRemove p.mobileMenu "open", overflow := "" }

/-- The function `toggleMenu`: `classList.toggle('open')` without `force`. -/
def toggleMenu (p : Page) : Page :=
  { p with mobileMenu := classToggle p.mobileMenu "open" (decide ("open" ∉ p.mobileMenu)) }

/-- The `resize` listener of the navigation. -/
def navResize (p : Page) (innerWidth : Int) : Page :=
  if innerWidth > 960 then { p with mobileMenu := classRemove p.mobileMenu "open" } else p

/-- What can happen to the page. -/
inductive PageEvent where
  | openPopup
  | closePopup
  | overlayClick (onOverlay : Bool)
  | keydown (key : String)
  | menuLinkClick
  | toggleMenu
  | resize (innerWidth : Int)
  deriving DecidableEq

/-- One page event handled to completion. -/
def pageStep (p : Page) : PageEvent → Page
  | .openPopup => openPopup p
  | .closePopup => closePopup p
  | .overlayClick b => overlayClick p b
  | .keydown key => keydown p key
  | .menuLinkClick => menuLinkClick p
  | .toggleMenu => toggleMenu p
  | .resize w => navResize p w

/-- The popup is shown: the overlay bears `open`. -/
def isOpen (p : Page) : Prop := "open" ∈ p.overlay

instance (p : Page) : Decidable (isOpen p) := by unfold isOpen; infer_instance

/-- The page states reachable from a closed popup with an empty
`overflow` style. -/
inductive PageReachable : Page → Prop where
  | init (p : Page) : ¬ isOpen p → p.overflow = "" → PageReachable p
  | step {p : Page} (e : PageEvent) : PageReachable p → PageReachable (pageStep p e)

/-! # Theorems -/

/-! ## Class lists -/

theorem mem_classAdd (cls : List String) (c x : String) :
    x ∈ classAdd cls c ↔ x ∈ cls ∨ x = c := by
  unfold classAdd
  split
  · constructor
    · exact Or.inl
    · rintro (h | rfl)
      · exact h
      · assumption
  · simp

theorem mem_classRemove (cls : List String) (c x : String) :
    x ∈ classRemove cls c ↔ x ∈ cls ∧ x ≠ c := by
  unfold classRemove
  simp

theorem classRemove_classAdd (cls : List String) (c : String) :
    classRemove (classAdd cls c) c = classRemove cls c := by
  unfold classAdd classRemove
  split
  · rfl
  · simp

theorem classRemove_of_not_mem (cls : List String) (c : String) (h : c ∉ cls) :
    classRemove cls c = cls := by
  unfold classRemove
  rw [List.filter_eq_self]
  intro a ha
  simp only [bne_iff_ne, ne_eq]
  rintro rfl
  exact h ha

theorem classRemove_idem (cls : List String) (c : String) :
    classRemove (classRemove cls c) c = classRemove cls c := by
  unfold classRemove
  simp

/-! ## Advantages carousel -/

theorem goTo_currentIndex (c : Advantages) (index : Int) :
    (goTo c index).currentIndex = max 0 (min index c.maxIndex) := by
  unfold goTo; split <;> rfl

theorem goTo_total (c : Advantages) (index : Int) : (goTo c index).total = c.total := by
  unfold goTo; split <;> rfl

theorem goTo_visibleCount (c : Advantages) (index : Int) :
    (goTo c index).visibleCount = c.visibleCount := by
  unfold goTo; split <;> rfl

theorem goTo_maxIndex (c : Advantages) (index : Int) :
    (goTo c index).maxIndex = c.maxIndex := by
  unfold goTo; split <;> rfl

theorem goTo_innerWidth (c : Advantages) (index : Int) :
    (goTo c index).innerWidth = c.innerWidth := by
  unfold goTo; split <;> rfl

theorem advInv_goTo (c : Advantages) (index : Int)
    (hm : c.maxIndex = (c.total : Int) - c.visibleCount)
    (hv : c.visibleCount = getVisibleCount c.innerWidth) : AdvInv (goTo c index) := by
  unfold AdvInv
  rw [goTo_currentIndex, goTo_total, goTo_visibleCount, goTo_maxIndex, goTo_innerWidth]
  refine ⟨by omega, by omega, hm, hv⟩

theorem advInv_init (total : Nat) (w cw : Int) (markup : List Dot) :
    AdvInv (advInit total w cw markup) := by
  unfold advInit
  apply advInv_goTo <;> rfl

theorem advInv_step (c : Advantages) (e : AdvEvent) (h : AdvInv c) : AdvInv (advStep c e) := by
  obtain ⟨h0, h1, hm, hv⟩ := h
  cases e with
  | goTo index => exact advInv_goTo c index hm hv
  | touchStart x => exact ⟨h0, h1, hm, hv⟩
  | touchEnd x =>
    show AdvInv (touchEnd c x)
    unfold touchEnd
    simp only
    split
    · exact advInv_goTo c _ hm hv
    · exact ⟨h0, h1, hm, hv⟩
  | tick => exact advInv_goTo c _ hm hv
  | resize w cw =>
    show AdvInv (onResize { c with innerWidth := w, cardWidth := cw })
    unfold onResize
    simp only
    split
    · apply advInv_goTo <;> rfl
    · rename_i hne
      exact ⟨h0, h1, hm, by simpa using (not_not.mp hne).symm⟩

theorem advInv_of_reachable {c : Advantages} (h : AdvReachable c) : AdvInv c := by
  induction h with
  | init total w cw markup => exact advInv_init total w cw markup
  | step e _ ih => exact advInv_step _ e ih

theorem buildDots_dots (c : Advantages) :
    (buildDots c).dots =
      (List.range ((c.total : Int) - getVisibleCount c.innerWidth + 1).toNat).map
        (mkDot c.currentIndex) := rfl

theorem mkDot_active (ci : Int) (i : Nat) : "active" ∈ (mkDot ci i).classes ↔ (i : Int) = ci := by
  unfold mkDot
  by_cases h : (i : Int) = ci <;> simp [h]

/-- Claim C1: for every viewport width `w`, `getVisibleCount` returns 1 if
`w ≤ 600`, 2 if `600 < w ≤ 960` and 3 otherwise, so the result is always
1, 2 or 3 and the boundaries 600 and 960 belong to the smaller count. -/
theorem getVisibleCount_spec (w : Int) :
    (w ≤ 600 → getVisibleCount w = 1) ∧
    (600 < w → w ≤ 960 → getVisibleCount w = 2) ∧
    (960 < w → getVisibleCount w = 3) ∧
    (getVisibleCount w = 1 ∨ getVisibleCount w = 2 ∨ getVisibleCount w = 3) ∧
    getVisibleCount 600 = 1 ∧ getVisibleCount 960 = 2 := by
  unfold getVisibleCount
  refine ⟨fun h => by simp [h], fun h1 h2 => ?_, fun h => ?_, ?_, by decide, by decide⟩
  · rw [if_neg (by omega), if_pos h2]
  · rw [if_neg (by omega), if_neg (by omega)]
  · split
    · exact Or.inl rfl
    · split
      · exact Or.inr (Or.inl rfl)
      · exact Or.inr (Or.inr rfl)

/-- Claim C1 at the widths 600, 601, 960 and 961. -/
theorem getVisibleCount_spec_witness :
    getVisibleCount 600 = 1 ∧ getVisibleCount 601 = 2 ∧ getVisibleCount 960 = 2 ∧
      getVisibleCount 961 = 3 :=
  ⟨(getVisibleCount_spec 600).1 (by decide),
   (getVisibleCount_spec 601).2.1 (by decide) (by decide),
   (getVisibleCount_spec 960).2.1 (by decide) (by decide),
   (getVisibleCount_spec 961).2.2.1 (by decide)⟩

/-- Claim C2 as stated fails: with 2 cards at width 1000 the carousel
starts with `visibleCount = 3`, so `total - visibleCount = -1`, while
`currentIndex = 0`. -/
theorem carousel_index_invariant_fails :
    AdvReachable (advInit 2 1000 300 []) ∧
    (advInit 2 1000 300 []).currentIndex = 0 ∧
    ((advInit 2 1000 300 []).total : Int) - (advInit 2 1000 300 []).visibleCount = -1 ∧
    ¬ (0 ≤ (advInit 2 1000 300 []).currentIndex ∧
       (advInit 2 1000 300 []).currentIndex ≤
         ((advInit 2 1000 300 []).total : Int) - (advInit 2 1000 300 []).visibleCount) :=
  ⟨.init 2 1000 300 [], by decide, by decide, by decide⟩

/-- Claim C2, amended: for every number of cards and every viewport width,
in every state reachable from initialisation by `goTo` calls with any
integer, swipes, auto-advance ticks and resizes to any width, the index
satisfies `0 ≤ currentIndex ≤ max 0 (total - visibleCount)`; so it is at
most `total - visibleCount` whenever at least `visibleCount` cards exist.
Moreover `maxIndex = total - visibleCount` and `visibleCount` is the count
for the current width. -/
theorem carousel_index_invariant (c : Advantages) (h : AdvReachable c) :
    0 ≤ c.currentIndex ∧
    c.currentIndex ≤ max 0 ((c.total : Int) - c.visibleCount) ∧
    (c.visibleCount ≤ (c.total : Int) → c.currentIndex ≤ (c.total : Int) - c.visibleCount) ∧
    c.maxIndex = (c.total : Int) - c.visibleCount ∧
    c.visibleCount = getVisibleCount c.innerWidth := by
  obtain ⟨h0, h1, hm, hv⟩ := advInv_of_reachable h
  exact ⟨h0, h1, fun hle => by omega, hm, hv⟩

/-- Claim C2, amended, on 6 cards at width 500 after `goTo(7)` and a
resize to width 1000: the index is between 0 and 3. -/
theorem carousel_index_invariant_witness :
    0 ≤ (advStep (advStep (advInit 6 500 300 []) (.goTo 7)) (.resize 1000 300)).currentIndex ∧
    (advStep (advStep (advInit 6 500 300 []) (.goTo 7)) (.resize 1000 300)).currentIndex ≤
      (((advStep (advStep (advInit 6 500 300 []) (.goTo 7)) (.resize 1000 300)).total : Nat) : Int)
        - (advStep (advStep (advInit 6 500 300 []) (.goTo 7)) (.resize 1000 300)).visibleCount :=
  ⟨(carousel_index_invariant _
      (.step (.resize 1000 300) (.step (.goTo 7) (.init 6 500 300 [])))).1,
   (carousel_index_invariant _
      (.step (.resize 1000 300) (.step (.goTo 7) (.init 6 500 300 [])))).2.2.1 (by decide)⟩

/-- Claim C3 as stated fails: with 2 cards at width 1000
(`total - visibleCount = -1`) the call `goTo(7)` leaves `currentIndex = 0`,
which is neither inside `[0, total - visibleCount]` nor equal to
`total - visibleCount`, although 7 is above that range. -/
theorem goTo_clamps_fails :
    AdvReachable (advInit 2 1000 300 []) ∧
    ((advInit 2 1000 300 []).total : Int) - (advInit 2 1000 300 []).visibleCount < 7 ∧
    (goTo (advInit 2 1000 300 []) 7).currentIndex = 0 ∧
    ¬ ((goTo (advInit 2 1000 300 []) 7).currentIndex ≤
        ((advInit 2 1000 300 []).total : Int) - (advInit 2 1000 300 []).visibleCount) ∧
    (goTo (advInit 2 1000 300 []) 7).currentIndex ≠
        ((advInit 2 1000 300 []).total : Int) - (advInit 2 1000 300 []).visibleCount :=
  ⟨.init 2 1000 300 [], by decide, by decide, by decide, by decide⟩

/-- Claim C3, amended: in every reachable state and for every integer
`index`, after `goTo(index)` the index lies in
`[0, max 0 (total - visibleCount)]`; it equals `index` when `index` is in
`[0, total - visibleCount]`, 0 when `index` is negative, and
`max 0 (total - visibleCount)` when `index` is above `total - visibleCount`
(that is `total - visibleCount` itself whenever it is not negative).
`goTo` changes neither `total` nor `visibleCount`. -/
theorem goTo_clamps (c : Advantages) (index : Int) (h : AdvReachable c) :
    0 ≤ (goTo c index).currentIndex ∧
    (goTo c index).currentIndex ≤ max 0 ((c.total : Int) - c.visibleCount) ∧
    (0 ≤ index → index ≤ (c.total : Int) - c.visibleCount → (goTo c index).currentIndex = index) ∧
    (index < 0 → (goTo c index).currentIndex = 0) ∧
    ((c.total : Int) - c.visibleCount < index →
      (goTo c index).currentIndex = max 0 ((c.total : Int) - c.visibleCount)) ∧
    ((c.total : Int) - c.visibleCount < index → 0 ≤ (c.total : Int) - c.visibleCount →
      (goTo c index).currentIndex = (c.total : Int) - c.visibleCount) ∧
    (goTo c index).total = c.total ∧ (goTo c index).visibleCount = c.visibleCount := by
  obtain ⟨_, _, hm, _⟩ := advInv_of_reachable h
  rw [goTo_currentIndex, goTo_total, goTo_visibleCount]
  refine ⟨by omega, by omega, fun _ _ => by omega, fun _ => by omega, fun _ => by omega,
    fun _ _ => by omega, rfl, rfl⟩

/-- Claim C3, the scenario of the claim: with 6 cards at width 500
(`visibleCount = 1`), `goTo(7)` leaves `currentIndex = 5`. -/
theorem goTo_clamps_witness :
    (advInit 6 500 300 []).visibleCount = 1 ∧ (goTo (advInit 6 500 300 []) 7).currentIndex = 5 := by
  have h := (goTo_clamps (advInit 6 500 300 []) 7 (.init 6 500 300 [])).2.2.2.2.2.1
    (by decide) (by decide)
  exact ⟨by decide, by rw [h]; decide⟩

/-- Claim C4 as stated fails: with 1 card at width 1000 `buildDots` builds
no dot, while `total - visibleCount + 1 = -1`. -/
theorem buildDots_count_fails :
    (buildDots (advStart 1 1000 300 [])).dots = [] ∧
    ((advStart 1 1000 300 []).total : Int) - (buildDots (advStart 1 1000 300 [])).visibleCount + 1
      = -1 ∧
    ¬ (((buildDots (advStart 1 1000 300 [])).dots.length : Int) =
        ((advStart 1 1000 300 []).total : Int)
          - (buildDots (advStart 1 1000 300 [])).visibleCount + 1) := by
  decide

/-- Claim C4, amended: `buildDots` recomputes `visibleCount` from the
current width and regenerates exactly one dot per index in
`[0, total - visibleCount]`, that is `max 0 (total - visibleCount + 1)`
dots; the dot at position `i` goes to index `i` and is marked active
exactly when `i = currentIndex` (so when `currentIndex` is in the range the
dot at that position is the active one); the previous dots do not
matter. -/
theorem buildDots_spec (c : Advantages) :
    (buildDots c).visibleCount = getVisibleCount c.innerWidth ∧
    (buildDots c).maxIndex = (c.total : Int) - getVisibleCount c.innerWidth ∧
    ((buildDots c).dots.length : Int)
      = max 0 ((c.total : Int) - (buildDots c).visibleCount + 1) ∧
    (∀ i : Nat, i < (buildDots c).dots.length ↔
      (i : Int) ≤ (c.total : Int) - (buildDots c).visibleCount) ∧
    (∀ (i : Nat) (d : Dot), (buildDots c).dots[i]? = some d →
      d.target = i ∧ "dot" ∈ d.classes ∧ ("active" ∈ d.classes ↔ (i : Int) = c.currentIndex)) ∧
    (0 ≤ c.currentIndex → c.currentIndex ≤ (c.total : Int) - (buildDots c).visibleCount →
      ∃ d, (buildDots c).dots[c.currentIndex.toNat]? = some d ∧ "active" ∈ d.classes) ∧
    (∀ old : List Dot, (buildDots { c with dots := old }).dots = (buildDots c).dots) := by
  refine ⟨rfl, rfl, ?_, ?_, ?_, ?_, fun _ => rfl⟩
  · rw [buildDots_dots]
    simp only [List.length_map, List.length_range]
    show _ = max 0 ((c.total : Int) - getVisibleCount c.innerWidth + 1)
    omega
  · intro i
    rw [buildDots_dots]
    simp only [List.length_map, List.length_range]
    show _ ↔ (i : Int) ≤ (c.total : Int) - getVisibleCount c.innerWidth
    omega
  · intro i d hd
    rw [buildDots_dots] at hd
    simp only [List.getElem?_map, Option.map_eq_some'] at hd
    obtain ⟨j, hj, rfl⟩ := hd
    have hji : j = i := by
      by_cases hlt : i < ((c.total : Int) - getVisibleCount c.innerWidth + 1).toNat
      · rw [List.getElem?_range hlt] at hj; exact (Option.some.inj hj).symm
      · rw [List.getElem?_eq_none (by simpa using hlt)] at hj; cases hj
    subst hji
    refine ⟨rfl, ?_, mkDot_active _ _⟩
    unfold mkDot; split <;> simp
  · intro h0 h1
    have h1 : c.currentIndex ≤ (c.total : Int) - getVisibleCount c.innerWidth := h1
    refine ⟨mkDot c.currentIndex c.currentIndex.toNat, ?_, (mkDot_active _ _).2 (by omega)⟩
    rw [buildDots_dots, List.getElem?_map, List.getElem?_range (by omega)]
    rfl

/-- Claim C4, the scenario of the claim: 6 cards at width 500 give 6
dots, and the first one is the active one. -/
theorem buildDots_spec_witness :
    (buildDots (advStart 6 500 300 [])).dots.length = 6 ∧
    "active" ∈ (mkDot 0 0).classes := by
  refine ⟨?_, ?_⟩
  · have h := (buildDots_spec (advStart 6 500 300 [])).2.2.1
    have h1 : (buildDots (advStart 6 500 300 [])).visibleCount = 1 := by decide
    have h2 : ((advStart 6 500 300 []).total : Int) = 6 := by decide
    rw [h1, h2] at h
    omega
  · exact ((buildDots_spec (advStart 6 500 300 [])).2.2.2.2.1 0 (mkDot 0 0) (by decide)).2.2.2
      (by decide)

/-- Claim C8 as stated fails: with 2 cards at width 1000 the carousel is
at `currentIndex = 0` with `maxIndex = -1`; a touch from 200 to 140 (60 px
leftward) sets the index to `max 0 (min 1 (-1)) = 0`, which is not inside
`[0, maxIndex]`. -/
theorem swipe_range_fails :
    AdvReachable (advInit 2 1000 300 []) ∧
    (advInit 2 1000 300 []).maxIndex = -1 ∧
    (touchEnd (touchStart (advInit 2 1000 300 []) 200) 140).currentIndex = 0 ∧
    ¬ (0 ≤ (touchEnd (touchStart (advInit 2 1000 300 []) 200) 140).currentIndex ∧
       (touchEnd (touchStart (advInit 2 1000 300 []) 200) 140).currentIndex
         ≤ (advInit 2 1000 300 []).maxIndex) :=
  ⟨.init 2 1000 300 [], by decide, by decide, by decide⟩

/-- Claim C8, amended: for every touch-start coordinate `s` and touch-end
coordinate `e`, with `diff = s - e`, the `touchend` listener leaves
`currentIndex` unchanged when `|diff| ≤ 50`, sets it to
`clamp (currentIndex + 1)` when `diff > 50` and to `clamp (currentIndex - 1)`
when `diff < -50`, where `clamp x = max 0 (min x maxIndex)` bounds the result
to `[0, max 0 maxIndex]`, which is `[0, maxIndex]` whenever `maxIndex ≥ 0`;
in every reachable state the index therefore changes by at most one and
stays in `[0, max 0 maxIndex]`, and an index inside `[0, maxIndex]` stays
inside it. -/
theorem swipe_spec (c : Advantages) (s e : Int) :
    (|s - e| ≤ 50 → (touchEnd (touchStart c s) e).currentIndex = c.currentIndex) ∧
    (s - e > 50 → (touchEnd (touchStart c s) e).currentIndex
        = max 0 (min (c.currentIndex + 1) c.maxIndex)) ∧
    (s - e < -50 → (touchEnd (touchStart c s) e).currentIndex
        = max 0 (min (c.currentIndex - 1) c.maxIndex)) ∧
    (touchEnd (touchStart c s) e).maxIndex = c.maxIndex ∧
    (0 ≤ c.currentIndex → c.currentIndex ≤ c.maxIndex →
      0 ≤ (touchEnd (touchStart c s) e).currentIndex ∧
      (touchEnd (touchStart c s) e).currentIndex ≤ c.maxIndex) ∧
    (0 ≤ c.currentIndex → c.currentIndex ≤ max 0 c.maxIndex →
      |(touchEnd (touchStart c s) e).currentIndex - c.currentIndex| ≤ 1 ∧
      0 ≤ (touchEnd (touchStart c s) e).currentIndex ∧
      (touchEnd (touchStart c s) e).currentIndex ≤ max 0 c.maxIndex) ∧
    (50 < |s - e| → 0 ≤ c.maxIndex →
      0 ≤ (touchEnd (touchStart c s) e).currentIndex ∧
      (touchEnd (touchStart c s) e).currentIndex ≤ c.maxIndex) ∧
    (AdvReachable c →
      |(touchEnd (touchStart c s) e).currentIndex - c.currentIndex| ≤ 1 ∧
      0 ≤ (touchEnd (touchStart c s) e).currentIndex ∧
      (touchEnd (touchStart c s) e).currentIndex ≤ max 0 c.maxIndex ∧
      AdvReachable (touchEnd (touchStart c s) e)) := by
  have hreach : AdvReachable c → AdvReachable (touchEnd (touchStart c s) e) := fun h =>
    AdvReachable.step (.touchEnd e) (AdvReachable.step (.touchStart s) h)
  have key : (touchEnd (touchStart c s) e) =
      if |s - e| > 50 then goTo (touchStart c s) (c.currentIndex + (if s - e > 0 then 1 else -1))
      else touchStart c s := rfl
  have hts : (touchStart c s).maxIndex = c.maxIndex := rfl
  have htc : (touchStart c s).currentIndex = c.currentIndex := rfl
  have hr : AdvReachable c → 0 ≤ c.currentIndex ∧ c.currentIndex ≤ max 0 c.maxIndex := by
    intro h
    obtain ⟨h0, h1, hm, _⟩ := advInv_of_reachable h
    exact ⟨h0, by rw [hm]; exact h1⟩
  refine ⟨?_, ?_, ?_, ?_, ?_, ?_, ?_, fun h => ⟨?_, ?_, ?_, hreach h⟩⟩
  case refine_8 | refine_9 | refine_10 =>
    obtain ⟨h0, h1⟩ := hr h
    rw [key]
    have habs := abs_cases (s - e)
    by_cases hd : |s - e| > 50
    · rw [if_pos hd, goTo_currentIndex, hts]
      by_cases hp : s - e > 0
      · rw [if_pos hp]
        have := abs_cases (max 0 (min (c.currentIndex + 1) c.maxIndex) - c.currentIndex)
        omega
      · rw [if_neg hp]
        have := abs_cases (max 0 (min (c.currentIndex + -1) c.maxIndex) - c.currentIndex)
        omega
    · rw [if_neg hd, htc]
      have := abs_cases (c.currentIndex - c.currentIndex)
      omega
  case refine_4 =>
    rw [key]
    split
    · exact goTo_maxIndex _ _
    · rfl
  all_goals
    rw [key]
    have habs := abs_cases (s - e)
    by_cases hd : |s - e| > 50
    · rw [if_pos hd, goTo_currentIndex, hts]
      by_cases hp : s - e > 0
      · rw [if_pos hp]
        have := abs_cases (max 0 (min (c.currentIndex + 1) c.maxIndex) - c.currentIndex)
        first
          | rfl
          | (intros; omega)
      · rw [if_neg hp]
        have := abs_cases (max 0 (min (c.currentIndex + -1) c.maxIndex) - c.currentIndex)
        first
          | rfl
          | (intros; omega)
    · rw [if_neg hd, htc]
      have := abs_cases (c.currentIndex - c.currentIndex)
      first
        | rfl
        | (intros; omega)

/-- Claim C8, the scenario of the claim: at `currentIndex = 2` with
`maxIndex = 4`, a touch from 200 to 140 (60 px leftward) yields
`currentIndex = 3`, and a touch from 200 to 150 (50 px) changes nothing. -/
theorem swipe_spec_witness :
    (goTo (advInit 7 1000 300 []) 2).currentIndex = 2 ∧
    (goTo (advInit 7 1000 300 []) 2).maxIndex = 4 ∧
    (touchEnd (touchStart (goTo (advInit 7 1000 300 []) 2) 200) 140).currentIndex = 3 ∧
    (touchEnd (touchStart (goTo (advInit 7 1000 300 []) 2) 200) 150).currentIndex = 2 := by
  have h := (swipe_spec (goTo (advInit 7 1000 300 []) 2) 200 140).2.1 (by decide)
  have h2 := (swipe_spec (goTo (advInit 7 1000 300 []) 2) 200 150).1 (by decide)
  exact ⟨by decide, by decide, by rw [h]; decide, by rw [h2]; decide⟩

/-! ## Hero phone rotation -/

theorem iterate_rotate_state (markup : List String) (k : Nat) :
    (rotate^[k] (heroInit markup)).state = (List.range 5).map (fun i => (i + k) % 5) := by
  induction k with
  | zero => rfl
  | succ k ih =>
    rw [Function.iterate_succ_apply']
    show ((rotate^[k] (heroInit markup)).state.map (fun s => (s + 1) % 5)) = _
    rw [ih, List.map_map]
    apply List.map_congr_left
    intro i _
    show ((i + k) % 5 + 1) % 5 = (i + (k + 1)) % 5
    omega

theorem iterate_rotate_phones_length (markup : List String) (k : Nat) :
    (rotate^[k] (heroInit markup)).phones.length = markup.length := by
  induction k with
  | zero => rfl
  | succ k ih =>
    rw [Function.iterate_succ_apply']
    show (List.mapIdx _ (rotate^[k] (heroInit markup)).phones).length = _
    rw [List.length_mapIdx, ih]

theorem rotate_phones (h : Hero) (i : Nat) (hi : i < h.phones.length) :
    (rotate h).phones[i]? = some (phoneClass (rotate h).state i) := by
  show (List.mapIdx _ h.phones)[i]? = _
  rw [List.getElem?_mapIdx, List.getElem?_eq_getElem hi]
  rfl

theorem positions_getD (j : Nat) (hj : j < 5) :
    POSITIONS[j]? = some (POSITIONS.getD j "undefined") := by
  interval_cases j <;> rfl

/-- Claim C5: for every number `k` of invocations of `rotate` and every
phone `i` of the five, the position index of phone `i` is `(i + k) mod 5`
and its class is `phone` followed by `POSITIONS[(i + k) mod 5]` (written by
`rotate` itself once `k ≥ 1`, whatever the page source; given by the page
source for `k = 0`); the assignment of phones to positions stays a
permutation of the five positions and is the initial one again after 5
invocations. -/
theorem hero_rotation (markup : List String) (k i : Nat) (hi : i < 5) :
    (rotate^[k] (heroInit markup)).state[i]? = some ((i + k) % 5) ∧
    POSITIONS[(i + k) % 5]? = some (POSITIONS.getD ((i + k) % 5) "undefined") ∧
    (1 ≤ k → i < markup.length →
      (rotate^[k] (heroInit markup)).phones[i]?
        = some ("phone " ++ POSITIONS.getD ((i + k) % 5) "undefined")) ∧
    (rotate^[k] (heroInit naturalMarkup)).phones[i]?
        = some ("phone " ++ POSITIONS.getD ((i + k) % 5) "undefined") ∧
    (rotate^[k] (heroInit markup)).state.Perm [0, 1, 2, 3, 4] ∧
    (rotate^[k + 5] (heroInit markup)).state = (rotate^[k] (heroInit markup)).state ∧
    (rotate^[5] (heroInit markup)).state = (heroInit markup).state := by
  have hst : (rotate^[k] (heroInit markup)).state[i]? = some ((i + k) % 5) := by
    rw [iterate_rotate_state, List.getElem?_map, List.getElem?_range hi]; rfl
  have hph : ∀ (m : List String) (k : Nat), 1 ≤ k → i < m.length →
      (rotate^[k] (heroInit m)).phones[i]?
        = some ("phone " ++ POSITIONS.getD ((i + k) % 5) "undefined") := by
    intro m k hk him
    obtain ⟨j, rfl⟩ : ∃ j, k = j + 1 := ⟨k - 1, by omega⟩
    rw [Function.iterate_succ_apply',
      rotate_phones _ _ (by rw [iterate_rotate_phones_length]; exact him)]
    rw [← Function.iterate_succ_apply' rotate j (heroInit m)]
    unfold phoneClass
    rw [iterate_rotate_state, List.getElem?_map, List.getElem?_range hi]
    rfl
  refine ⟨hst, positions_getD _ (Nat.mod_lt _ (by decide)), hph markup k, ?_, ?_, ?_, ?_⟩
  · rcases Nat.eq_zero_or_pos k with rfl | hk
    · interval_cases i <;> rfl
    · exact hph naturalMarkup k hk (by simpa [naturalMarkup] using hi)
  · rw [iterate_rotate_state]
    have hk5 : (List.range 5).map (fun i => (i + k) % 5)
        = (List.range 5).map (fun i => (i + k % 5) % 5) := by
      apply List.map_congr_left
      intro j _
      show (j + k) % 5 = (j + k % 5) % 5
      omega
    rw [hk5]
    have hr : k % 5 < 5 := Nat.mod_lt _ (by decide)
    generalize k % 5 = r at hr
    interval_cases r <;> decide
  · rw [iterate_rotate_state, iterate_rotate_state]
    apply List.map_congr_left
    intro j _
    show (j + (k + 5)) % 5 = (j + k) % 5
    omega
  · rw [iterate_rotate_state]; rfl

/-- Claim C5 on five phones whose class in the page source is only
`phone`: after 7 invocations phone 4 is at position `(4 + 7) mod 5 = 1`,
with class `phone pos-left`. -/
theorem hero_rotation_witness :
    (rotate^[7] (heroInit ["phone", "phone", "phone", "phone", "phone"])).phones[4]?
      = some "phone pos-left" := by
  have h := (hero_rotation ["phone", "phone", "phone", "phone", "phone"] 7 4 (by decide)).2.2.1
    (by decide) (by decide)
  rw [h]; rfl

/-! ## Showcase tab switcher -/

theorem activateTab_panel_active (p : Item) (tabId : Option String) :
    "active" ∈ (if p.data = tabId then { p with classes := classAdd p.classes "active" }
      else { p with classes := classRemove (classRemove p.classes "active") "visible" } :
        Item).classes
      ↔ p.data = tabId := by
  split
  · rename_i h
    simp [mem_classAdd, h]
  · rename_i h
    simp [mem_classRemove, h]

theorem activateTab_panel_data (p : Item) (tabId : Option String) :
    (if p.data = tabId then { p with classes := classAdd p.classes "active" }
      else { p with classes := classRemove (classRemove p.classes "active") "visible" } :
        Item).data
      = p.data := by
  split <;> rfl

theorem activateTab_tab_active (t : Item) (tabId : Option String) :
    "active" ∈ classToggle t.classes "active" (decide (t.data = tabId)) ↔ t.data = tabId := by
  unfold classToggle
  by_cases h : t.data = tabId
  · simp [h, mem_classAdd]
  · simp [h, mem_classRemove]

/-- Claim C6 as stated fails: with tabs `a` and `b` and a single panel `a`,
after `activateTab('b')` no panel bears `active`. -/
theorem activateTab_exactly_one_fails :
    (activateTab (showcaseInit [⟨some "a", ["active"]⟩, ⟨some "b", []⟩]
        [⟨some "a", ["active", "visible"]⟩]) (some "b")).panels = [⟨some "a", []⟩] ∧
    ¬ ((activateTab (showcaseInit [⟨some "a", ["active"]⟩, ⟨some "b", []⟩]
        [⟨some "a", ["active", "visible"]⟩]) (some "b")).panels.countP
      (fun p => decide ("active" ∈ p.classes)) = 1) := by
  decide

/-- Claim C6, amended: for every collection of tabs and panels and every
identifier `id`, after `activateTab(id)` a panel bears `active` exactly
when its `data-panel` equals `id`, and a tab exactly when its `data-tab`
equals `id`, whatever classes they bore before; the identifiers are
unchanged.  So as many panels bear `active` as have the identifier `id`:
exactly one when exactly one panel has it, and likewise for the tabs. -/
theorem activateTab_spec (s : Showcase) (tabId : Option String) :
    (∀ p ∈ (activateTab s tabId).panels, "active" ∈ p.classes ↔ p.data = tabId) ∧
    (∀ t ∈ (activateTab s tabId).tabs, "active" ∈ t.classes ↔ t.data = tabId) ∧
    (activateTab s tabId).panels.map (fun p => p.data) = s.panels.map (fun p => p.data) ∧
    (activateTab s tabId).tabs.map (fun t => t.data) = s.tabs.map (fun t => t.data) ∧
    (activateTab s tabId).panels.countP (fun p => decide ("active" ∈ p.classes))
      = s.panels.countP (fun p => decide (p.data = tabId)) ∧
    (activateTab s tabId).tabs.countP (fun t => decide ("active" ∈ t.classes))
      = s.tabs.countP (fun t => decide (t.data = tabId)) ∧
    (s.panels.countP (fun p => decide (p.data = tabId)) = 1 →
      (activateTab s tabId).panels.countP (fun p => decide ("active" ∈ p.classes)) = 1) ∧
    (s.tabs.countP (fun t => decide (t.data = tabId)) = 1 →
      (activateTab s tabId).tabs.countP (fun t => decide ("active" ∈ t.classes)) = 1) := by
  have hp : (activateTab s tabId).panels = s.panels.map (fun p =>
      if p.data = tabId then { p with classes := classAdd p.classes "active" }
      else { p with classes := classRemove (classRemove p.classes "active") "visible" }) := rfl
  have ht : (activateTab s tabId).tabs = s.tabs.map (fun t =>
      { t with classes := classToggle t.classes "active" (decide (t.data = tabId)) }) := rfl
  have cp : (activateTab s tabId).panels.countP (fun p => decide ("active" ∈ p.classes))
      = s.panels.countP (fun p => decide (p.data = tabId)) := by
    rw [hp, List.countP_map]
    apply List.countP_congr
    intro p _
    simp only [Function.comp_apply, decide_eq_true_eq]
    exact activateTab_panel_active p tabId
  have ct : (activateTab s tabId).tabs.countP (fun t => decide ("active" ∈ t.classes))
      = s.tabs.countP (fun t => decide (t.data = tabId)) := by
    rw [ht, List.countP_map]
    apply List.countP_congr
    intro t _
    simp only [Function.comp_apply, decide_eq_true_eq]
    exact activateTab_tab_active t tabId
  refine ⟨?_, ?_, ?_, ?_, cp, ct, fun h => cp.trans h, fun h => ct.trans h⟩
  · intro p hmem
    rw [hp, List.mem_map] at hmem
    obtain ⟨q, _, rfl⟩ := hmem
    rw [activateTab_panel_active, activateTab_panel_data]
  · intro t hmem
    rw [ht, List.mem_map] at hmem
    obtain ⟨q, _, rfl⟩ := hmem
    exact activateTab_tab_active q tabId
  · rw [hp, List.map_map]
    apply List.map_congr_left
    intro p _
    exact activateTab_panel_data p tabId
  · rw [ht, List.map_map]; rfl

/-- Claim C6, amended, on tabs `a`, `b` and panels `a`, `b` that both bore
`active` before: after `activateTab('b')` exactly one panel bears it. -/
theorem activateTab_spec_witness :
    (activateTab (showcaseInit [⟨some "a", ["active"]⟩, ⟨some "b", []⟩]
        [⟨some "a", ["active", "visible"]⟩, ⟨some "b", ["active"]⟩]) (some "b")).panels.countP
      (fun p => decide ("active" ∈ p.classes)) = 1 :=
  (activateTab_spec _ (some "b")).2.2.2.2.2.2.1 (by decide)

/-- Claim C10 fails on the code: with tabs and panels `a` and `b`, once the
page-load reveal is over, `activateTab('b')` then `activateTab('a')`
before the next animation frame, then two frames: the deferred callback
of the first activation adds `visible` to panel `b`, which does not match
the most recently activated tab `a`. -/
theorem showcase_stale_reveal :
    (showRun
      (showcaseInit
        [⟨some "a", ["showcase-tab", "active"]⟩, ⟨some "b", ["showcase-tab"]⟩]
        [⟨some "a", ["showcase-panel", "active"]⟩, ⟨some "b", ["showcase-panel"]⟩])
      [.frame, .frame, .activate (some "b"), .activate (some "a"), .frame, .frame]).panels
    = [⟨some "a", ["showcase-panel", "active", "visible"]⟩,
       ⟨some "b", ["showcase-panel", "visible"]⟩] := by
  decide

/-! ## Timeline reveal -/

theorem foldl_onEntry (entries : List Entry) (n : Nat) (t : Timeline) :
    ((entries.enumFrom n).foldl (fun t ie => onEntry t ie.1 ie.2) t).timeouts
      = t.timeouts ++ ((entries.enumFrom n).filter (fun ie => ie.2.isIntersecting)).map
          (fun ie => { item := ie.2.target, delay := ie.1 * 100 }) ∧
    ((entries.enumFrom n).foldl (fun t ie => onEntry t ie.1 ie.2) t).observed
      = t.observed.filter (fun x => decide (x ∉ intersectingItems entries)) := by
  induction entries generalizing n t with
  | nil => simp [intersectingItems]
  | cons e es ih =>
    rw [List.enumFrom_cons, List.foldl_cons]
    obtain ⟨h1, h2⟩ := ih (n + 1) (onEntry t n e)
    rw [h1, h2]
    unfold onEntry
    cases hi : e.isIntersecting
    · simp [intersectingItems, hi]
    · simp only [if_true, List.filter_cons, hi, List.map_cons, List.append_assoc,
        List.singleton_append, List.filter_filter, intersectingItems, true_and]
      apply List.filter_congr
      intro x _
      by_cases hx : x = e.target <;> simp [hx]

theorem observerCallback_timeouts (t : Timeline) (entries : List Entry) :
    (observerCallback t entries).timeouts
      = t.timeouts ++ (entries.enum.filter (fun ie => ie.2.isIntersecting)).map
          (fun ie => { item := ie.2.target, delay := ie.1 * 100 }) :=
  (foldl_onEntry entries 0 t).1

theorem observerCallback_observed (t : Timeline) (entries : List Entry) :
    (observerCallback t entries).observed
      = t.observed.filter (fun x => decide (x ∉ intersectingItems entries)) :=
  (foldl_onEntry entries 0 t).2

theorem observerCallback_items (t : Timeline) (entries : List Entry) :
    (observerCallback t entries).timeouts.map (fun o => o.item)
      = t.timeouts.map (fun o => o.item) ++ intersectingItems entries := by
  rw [observerCallback_timeouts, List.map_append, List.map_map]
  congr 1
  have h : (entries.enum.filter (fun ie => ie.2.isIntersecting)).map (fun ie => ie.2)
      = entries.filter (fun e => e.isIntersecting) := by
    have := List.filter_map (f := fun ie : Nat × Entry => ie.2)
      (p := fun e : Entry => e.isIntersecting) (l := entries.enum)
    rw [List.enum_map_snd] at this
    exact this.symm
  unfold intersectingItems
  rw [← h, List.map_map]
  rfl

theorem oneShot_callback (t : Timeline) (b : List Entry) (h : OneShot t)
    (hn : (b.map (fun e => e.target)).Nodup) (ho : ∀ e ∈ b, e.target ∈ t.observed) :
    OneShot (observerCallback t b) := by
  obtain ⟨h1, h2⟩ := h
  have hsub : (intersectingItems b).Sublist (b.map (fun e => e.target)) :=
    List.Sublist.map _ (List.filter_sublist _)
  have hmem : ∀ x ∈ intersectingItems b, x ∈ t.observed := by
    intro x hx
    have := hsub.subset hx
    rw [List.mem_map] at this
    obtain ⟨e, he, rfl⟩ := this
    exact ho e he
  constructor
  · rw [observerCallback_items]
    refine List.Nodup.append h1 (hn.sublist hsub) ?_
    intro x hx1 hx2
    exact h2 x hx1 (hmem x hx2)
  · intro x hx
    rw [observerCallback_items, List.mem_append] at hx
    rw [observerCallback_observed, List.mem_filter]
    rintro ⟨hxo, hxn⟩
    rcases hx with hx | hx
    · exact h2 x hx hxo
    · simp at hxn; exact hxn hx

theorem oneShot_run (batches : List (List Entry)) (t : Timeline) (h : OneShot t)
    (hd : Delivered t batches) : OneShot (timelineRun t batches) := by
  induction batches generalizing t with
  | nil => exact h
  | cons b bs ih =>
    obtain ⟨hn, ho, hd⟩ := hd
    exact ih _ (oneShot_callback t b h hn ho) hd

/-- Claim C7 as stated fails: in the batch made of a non-intersecting entry
for item 0 followed by an intersecting entry for item 1, item 1 is the
first intersecting entry, so the stated delay is 0 ms, but the callback
sets its timeout to 100 ms. -/
theorem timeline_stagger_fails :
    (observerCallback (timelineInit 2) [⟨0, false⟩, ⟨1, true⟩]).timeouts = [⟨1, 100⟩] ∧
    specTimeouts [⟨0, false⟩, ⟨1, true⟩] = [⟨1, 0⟩] ∧
    (observerCallback (timelineInit 2) [⟨0, false⟩, ⟨1, true⟩]).timeouts
      ≠ (timelineInit 2).timeouts ++ specTimeouts [⟨0, false⟩, ⟨1, true⟩] := by
  decide

/-- Claim C7, amended: in every callback batch, each intersecting entry has
its `visible` class scheduled with a delay of 100 ms times its index in
the whole batch, which is its index among the intersecting entries plus
the number of non-intersecting entries before it; one timeout is set per
intersecting entry and none for the others; the item of an intersecting
entry is unobserved in the same callback and no other item is.  So over
batches that name observed items only, each once, every item is scheduled
at most once. -/
theorem timeline_stagger (t : Timeline) (entries : List Entry) :
    (observerCallback t entries).timeouts
      = t.timeouts ++ (entries.enum.filter (fun ie => ie.2.isIntersecting)).map
          (fun ie => { item := ie.2.target, delay := ie.1 * 100 }) ∧
    (∀ (i : Nat) (e : Entry), entries[i]? = some e → e.isIntersecting = true →
      ({ item := e.target, delay := 100 * i } : Timeout) ∈ (observerCallback t entries).timeouts ∧
      i = (entries.take i).countP (fun x => x.isIntersecting)
            + (entries.take i).countP (fun x => !x.isIntersecting) ∧
      e.target ∉ (observerCallback t entries).observed) ∧
    ((observerCallback t entries).timeouts.length
      = t.timeouts.length + entries.countP (fun x => x.isIntersecting)) ∧
    (∀ x, x ∈ (observerCallback t entries).observed ↔
      x ∈ t.observed ∧ ∀ e ∈ entries, e.isIntersecting = true → x ≠ e.target) ∧
    (∀ (n : Nat) (batches : List (List Entry)), Delivered (timelineInit n) batches →
      ((timelineRun (timelineInit n) batches).timeouts.map (fun o => o.item)).Nodup) := by
  refine ⟨observerCallback_timeouts t entries, ?_, ?_, ?_, ?_⟩
  · intro i e hie hint
    refine ⟨?_, ?_, ?_⟩
    · rw [observerCallback_timeouts, List.mem_append]
      right
      rw [List.mem_map]
      refine ⟨(i, e), ?_, by simp [Nat.mul_comm]⟩
      rw [List.mem_filter]
      exact ⟨List.mk_mem_enum_iff_getElem?.2 hie, hint⟩
    · have hlen : i < entries.length := by
        by_contra hc
        rw [List.getElem?_eq_none (by omega)] at hie
        cases hie
      have := List.length_eq_countP_add_countP (fun x : Entry => x.isIntersecting) (entries.take i)
      rw [List.length_take, Nat.min_eq_left (Nat.le_of_lt hlen)] at this
      simpa using this
    · rw [observerCallback_observed, List.mem_filter]
      rintro ⟨_, hx⟩
      simp only [decide_eq_true_eq] at hx
      apply hx
      unfold intersectingItems
      rw [List.mem_map]
      exact ⟨e, List.mem_filter.2 ⟨List.getElem?_mem hie, hint⟩, rfl⟩
  · have h := congrArg List.length (observerCallback_items t entries)
    simp only [List.length_map, List.length_append, intersectingItems] at h
    rw [h, List.countP_eq_length_filter]
  · intro x
    rw [observerCallback_observed, List.mem_filter]
    simp only [decide_eq_true_eq, intersectingItems, List.mem_map, List.mem_filter, not_exists,
      not_and, and_imp]
    constructor
    · rintro ⟨h1, h2⟩
      exact ⟨h1, fun e he hi hx => h2 e he hi hx.symm⟩
    · rintro ⟨h1, h2⟩
      exact ⟨h1, fun e he hi hx => h2 e he hi hx.symm⟩
  · intro n batches hd
    exact (oneShot_run batches (timelineInit n) ⟨List.nodup_nil, fun _ h => by cases h⟩ hd).1

/-- Claim C7, amended, on the batch of a non-intersecting entry for item 0
and an intersecting entry for item 1: item 1 waits 100 ms and is no longer
observed; and over that batch followed by an intersecting entry for item
0, no item is scheduled twice. -/
theorem timeline_stagger_witness :
    ({ item := 1, delay := 100 } : Timeout) ∈
      (observerCallback (timelineInit 2) [⟨0, false⟩, ⟨1, true⟩]).timeouts ∧
    1 ∉ (observerCallback (timelineInit 2) [⟨0, false⟩, ⟨1, true⟩]).observed ∧
    ((timelineRun (timelineInit 2) [[⟨0, false⟩, ⟨1, true⟩], [⟨0, true⟩]]).timeouts.map
      (fun o => o.item)).Nodup :=
  ⟨((timeline_stagger (timelineInit 2) [⟨0, false⟩, ⟨1, true⟩]).2.1 1 ⟨1, true⟩ rfl rfl).1,
   ((timeline_stagger (timelineInit 2) [⟨0, false⟩, ⟨1, true⟩]).2.1 1 ⟨1, true⟩ rfl rfl).2.2,
   (timeline_stagger (timelineInit 2) []).2.2.2.2 2 [[⟨0, false⟩, ⟨1, true⟩], [⟨0, true⟩]]
     ⟨by decide, by decide, by decide, by decide, trivial⟩⟩

/-! ## Popup -/

/-- Claim C9: from every page state, `openPopup()` followed by
`closePopup()` leaves the overlay without `open` and the body `overflow`
empty (the page is as after `closePopup()` alone); `closePopup` is
idempotent; and in every state reachable from a closed popup with empty
`overflow` by the page events, a closed overlay implies an empty
`overflow`, so Escape on a closed popup changes nothing. -/
theorem popup_round_trip :
    (∀ p : Page, ¬ isOpen (closePopup (openPopup p)) ∧ (closePopup (openPopup p)).overflow = "" ∧
      closePopup (openPopup p) = closePopup p) ∧
    (∀ p : Page, closePopup (closePopup p) = closePopup p) ∧
    (∀ p : Page, PageReachable p → ¬ isOpen p → p.overflow = "" ∧ keydown p "Escape" = p) := by
  have hinv : ∀ p : Page, PageReachable p → ¬ isOpen p → p.overflow = "" := by
    intro p hp
    induction hp with
    | init p _ h0 => exact fun _ => h0
    | @step q e _ ih =>
      cases e with
      | openPopup =>
        intro hc
        exact absurd ((mem_classAdd _ _ _).2 (Or.inr rfl)) hc
      | closePopup => exact fun _ => rfl
      | overlayClick b =>
        cases b
        · exact ih
        · exact fun _ => rfl
      | keydown key =>
        show ¬ isOpen (keydown q key) → (keydown q key).overflow = ""
        unfold keydown
        split
        · exact fun _ => rfl
        · exact ih
      | menuLinkClick => exact fun _ => rfl
      | toggleMenu => exact ih
      | resize w =>
        show ¬ isOpen (navResize q w) → (navResize q w).overflow = ""
        unfold navResize
        split
        · exact ih
        · exact ih
  refine ⟨fun p => ⟨?_, rfl, ?_⟩, fun p => ?_, fun p hp hc => ⟨hinv p hp hc, ?_⟩⟩
  · intro h
    exact ((mem_classRemove _ _ _).1 h).2 rfl
  · show ({ p with overlay := classRemove (classAdd p.overlay "open") "open", overflow := "" }
      : Page) = _
    rw [classRemove_classAdd]; rfl
  · show ({ p with overlay := classRemove (classRemove p.overlay "open") "open", overflow := "" }
      : Page) = _
    rw [classRemove_idem]; rfl
  · have ho := hinv p hp hc
    unfold keydown
    rw [if_pos rfl]
    show ({ p with overlay := classRemove p.overlay "open", overflow := "" } : Page) = p
    rw [classRemove_of_not_mem _ _ hc, ← ho]

/-- Claim C9 on a page whose popup was opened, had a mobile-menu link
followed and was closed by an overlay click: `overflow` is empty and
Escape changes nothing. -/
theorem popup_round_trip_witness :
    (pageStep (pageStep (pageStep ⟨["overlay"], "", ["menu"]⟩ .openPopup) .menuLinkClick)
        (.overlayClick true)).overflow = "" ∧
    keydown (pageStep (pageStep (pageStep ⟨["overlay"], "", ["menu"]⟩ .openPopup) .menuLinkClick)
        (.overlayClick true)) "Escape"
      = pageStep (pageStep (pageStep ⟨["overlay"], "", ["menu"]⟩ .openPopup) .menuLinkClick)
        (.overlayClick true) :=
  popup_round_trip.2.2 _
    (.step (.overlayClick true) (.step .menuLinkClick (.step .openPopup
      (.init ⟨["overlay"], "", ["menu"]⟩ (by decide) rfl))))
    (by decide)

end MoaIt
